import Mathlib

/-!
# Verification of the substratus Dataset controller

Shallow embedding of the Go controller package (`internal/controller`):
the generic reconcile `result` type, the job orchestrator `reconcileJob`,
the condition aggregation `conditionsReady`, the bucket-URL parsing
`parseBucketURL` (together with a model of the Go standard library
functions `net/url.Parse` and `path/filepath.Dir` that it calls), the
mount helpers `mountDataset` / `mountSavedModel`, the `nextPowOf2`
helper, and the Dataset reconciler (`reconcileData`, `loadJob`,
`authNServiceAccount`, `DatasetReconciler.Reconcile`).

External effects (Kubernetes API calls) are modelled by environment
records that fix the outcome of each call; the functions additionally
return a trace of the mutating operations they issued, so that frame
properties ("creates no job") are statable.
-/

set_option autoImplicit false

deriving instance DecidableEq for Except

namespace Substratus

/-! ## Generic controller types -/

/-- Model of `sigs.k8s.io/controller-runtime`'s `ctrl.Result`: a requeue flag and a
requeue delay (nanoseconds).  The Go zero value is `{false, 0}`. -/
structure CtrlResult where
  requeue : Bool := false
  requeueAfter : Int := 0
  deriving Repr, DecidableEq

/-- Model of the controller package's `result` struct: an embedded `ctrl.Result`
plus a `success` flag ("allows for propogating controller reconcile information
up the call stack"). -/
structure result where
  Result : CtrlResult := {}
  success : Bool := false
  deriving Repr, DecidableEq

/-- A `metav1.Condition` (the fields the controller reads: `Type` and `Status`;
`Status` is the string `"True"`, `"False"` or `"Unknown"`, compared with
`metav1.ConditionTrue = "True"`). -/
structure Condition where
  type : String
  status : String
  reason : String := ""
  message : String := ""
  deriving Repr, DecidableEq

/-- Value of `metav1.ConditionTrue`. -/
def ConditionTrue : String := "True"

/-! ## Condition aggregation (`conditionsReady`) -/

/-- One Go map assignment `m[c.Type] = (c.Status == metav1.ConditionTrue)`,
on a total map with zero-value default. -/
def condAssign (m : String → Bool) (c : Condition) : String → Bool :=
  fun t => if t = c.type then decide (c.status = ConditionTrue) else m t

/-- The map-building loop of `conditionsReady`: a fold of map assignments over
the condition list.  A Go map lookup of an absent key yields the zero value
`false`; later list entries overwrite earlier ones, exactly as repeated map
assignment does. -/
def actualConditions (objConditions : List Condition) : String → Bool :=
  objConditions.foldl condAssign (fun _ => false)

/-- Model of `conditionsReady(obj, requiredConditions)`: returns `false` as soon as some
`required && !actualConditions[condition]`, else `true`.  The Go
`map[string]bool` of required conditions is modelled as an entry list (a Go map
has unique keys; the conjunction below is order-independent, matching the
arbitrary map iteration order). -/
def conditionsReady (objConditions : List Condition)
    (requiredConditions : List (String × Bool)) : Bool :=
  requiredConditions.all fun p => !p.2 || actualConditions objConditions p.1

/-! ## The job orchestrator (`reconcileJob`) -/

/-- Model of a `batchv1.Job` (the fields the controller constructs or reads). -/
structure JobStatus where
  succeeded : Int := 0
  deriving Repr, DecidableEq

/-- The Job fields the Dataset controller sets in `loadJob` and the status the
orchestrator reads back.  `gcsFuseBucket` records the bucket of the GCS Fuse
CSI volume appended in the GCP branch (absent on other clouds). -/
structure KJob where
  name : String
  ns : String
  image : String := ""
  serviceAccountName : String := ""
  loadDataPath : String := ""
  gcsFuseBucket : Option String := none
  status : JobStatus := {}
  deriving Repr, DecidableEq

/-- Outcome of a `client.Create` call. -/
inductive CreateOutcome where
  | ok
  | alreadyExists
  | err (msg : String)
  deriving Repr, DecidableEq

/-- Model of `client.IgnoreAlreadyExists`: maps an already-exists error (and nil) to nil,
any other error to itself. -/
def IgnoreAlreadyExists : CreateOutcome → Option String
  | CreateOutcome.err m => some m
  | _ => none

/-- Mutating API operations issued by the controller, recorded as a trace. -/
inductive Op where
  | createOrUpdateSA (name ns : String)
  | createJob (name ns : String)
  | getJob (name ns : String)
  | statusUpdate (url : String) (conditions : List Condition) (ready : Bool)
  deriving Repr, DecidableEq

/-- Return value of `reconcileJob`: the `(result, error)` pair plus the trace of
API operations issued. -/
structure JobOut where
  res : result
  err : Option String
  ops : List Op
  deriving Repr, DecidableEq

/-- Model of `reconcileJob(ctx, c, obj, job, condition)`.  `createRes` and `getRes` fix
the outcomes of the two API calls; `getRes` carries the re-read Job object. -/
def reconcileJob (createRes : CreateOutcome) (getRes : Except String KJob)
    (job : KJob) : JobOut :=
  match IgnoreAlreadyExists createRes with
  | some m => ⟨{}, some ("creating Job: " ++ m), [Op.createJob job.name job.ns]⟩
  | none =>
    match getRes with
    | Except.error m =>
        ⟨{}, some ("geting Job: " ++ m),
          [Op.createJob job.name job.ns, Op.getJob job.name job.ns]⟩
    | Except.ok j =>
        if j.status.succeeded < 1 then
          -- Allow Job watch to requeue.
          ⟨{}, none, [Op.createJob job.name job.ns, Op.getJob job.name job.ns]⟩
        else
          ⟨{ success := true }, none,
            [Op.createJob job.name job.ns, Op.getJob job.name job.ns]⟩

/-! ## Model of `net/url.Parse` and `path/filepath.Dir`

The controller calls the Go standard library; the definitions below model the
part of its behaviour reachable from `parseBucketURL`: control-character
rejection, scheme extraction, query/fragment splitting, authority and host
parsing with host-charset and port validation, percent-escape decoding of
paths, and path cleaning.  Not modelled (unreachable from the controller's
inputs): userinfo charset validation and fragment decoding. -/

/-- Go `stringContainsCTLByte`: a byte below space or DEL. -/
def isCTLByte (c : Char) : Bool := c < ' ' || c = Char.ofNat 127

def stringContainsCTLByte (cs : List Char) : Bool := cs.any isCTLByte

def isSchemeAlpha (c : Char) : Bool :=
  ('a' ≤ c && c ≤ 'z') || ('A' ≤ c && c ≤ 'Z')

def isDigitCh (c : Char) : Bool := '0' ≤ c && c ≤ '9'

/-- Go `getScheme`: scan for a scheme terminated by a colon; a non-scheme
character before any colon means "no scheme"; a leading colon is an error. -/
def getSchemeAux (orig : List Char) : List Char → List Char → Nat →
    Except String (List Char × List Char)
  | [], _, _ => Except.ok ([], orig)
  | c :: rest, acc, i =>
    if isSchemeAlpha c then getSchemeAux orig rest (c :: acc) (i + 1)
    else if isDigitCh c || c = '+' || c = '-' || c = '.' then
      if i = 0 then Except.ok ([], orig) else getSchemeAux orig rest (c :: acc) (i + 1)
    else if c = ':' then
      if i = 0 then Except.error "missing protocol scheme"
      else Except.ok (acc.reverse, rest)
    else Except.ok ([], orig)

def getScheme (raw : List Char) : Except String (List Char × List Char) :=
  getSchemeAux raw raw [] 0

/-- Go `split(s, sep, true)`: split at the first occurrence, cutting the
separator out; `none` when the separator does not occur. -/
def splitCut (sep : Char) : List Char → List Char × Option (List Char)
  | [] => ([], none)
  | c :: rest =>
    if c = sep then ([], some rest)
    else
      let p := splitCut sep rest
      (c :: p.1, p.2)

/-- Go `split(s, sep, false)`: split at the first occurrence, keeping the
separator at the head of the second part. -/
def splitKeep (sep : Char) : List Char → List Char × List Char
  | [] => ([], [])
  | c :: rest =>
    if c = sep then ([], c :: rest)
    else
      let p := splitKeep sep rest
      (c :: p.1, p.2)

def isHexDigitCh (c : Char) : Bool :=
  isDigitCh c || ('a' ≤ c && c ≤ 'f') || ('A' ≤ c && c ≤ 'F')

def unhex (c : Char) : Nat :=
  if isDigitCh c then c.toNat - '0'.toNat
  else if 'a' ≤ c && c ≤ 'f' then c.toNat - 'a'.toNat + 10
  else if 'A' ≤ c && c ≤ 'F' then c.toNat - 'A'.toNat + 10
  else 0

/-- Go `unescape(s, encodePath)`: decode percent-escapes, rejecting malformed
ones; all plain characters pass through in path mode. -/
def unescapePath : List Char → Except String (List Char)
  | [] => Except.ok []
  | '%' :: a :: b :: rest =>
    if isHexDigitCh a && isHexDigitCh b then
      match unescapePath rest with
      | Except.ok r => Except.ok (Char.ofNat (16 * unhex a + unhex b) :: r)
      | Except.error e => Except.error e
    else Except.error "invalid URL escape"
  | '%' :: _ => Except.error "invalid URL escape"
  | c :: rest =>
    match unescapePath rest with
    | Except.ok r => Except.ok (c :: r)
    | Except.error e => Except.error e

/-- Characters `shouldEscape(c, encodeHost)` accepts unescaped: alphanumerics,
the unreserved marks, and the sub-delimiters Go allows in hosts. -/
def isHostChar (c : Char) : Bool :=
  isSchemeAlpha c || isDigitCh c ||
  c = '-' || c = '_' || c = '.' || c = '~' ||
  c = '!' || c = '$' || c = '&' || c = Char.ofNat 39 || c = '(' || c = ')' ||
  c = '*' || c = '+' || c = ',' || c = ';' || c = '=' || c = ':' ||
  c = '[' || c = ']' || c = '<' || c = '>' || c = '"'

/-- Go `unescape(s, encodeHost)`: decode percent-escapes and reject any plain
character the host encoding would have escaped. -/
def unescapeHost : List Char → Except String (List Char)
  | [] => Except.ok []
  | '%' :: a :: b :: rest =>
    if isHexDigitCh a && isHexDigitCh b then
      match unescapeHost rest with
      | Except.ok r => Except.ok (Char.ofNat (16 * unhex a + unhex b) :: r)
      | Except.error e => Except.error e
    else Except.error "invalid URL escape"
  | '%' :: _ => Except.error "invalid URL escape"
  | c :: rest =>
    if isHostChar c then
      match unescapeHost rest with
      | Except.ok r => Except.ok (c :: r)
      | Except.error e => Except.error e
    else Except.error ("invalid character " ++ String.mk [c] ++ " in host name")

/-- Go `validOptionalPort`: empty, or a colon followed by digits only. -/
def validOptionalPort : List Char → Bool
  | [] => true
  | ':' :: rest => rest.all isDigitCh
  | _ => false

/-- Index of the last occurrence of `sep`, if any. -/
def lastIndexOf (sep : Char) (cs : List Char) : Option Nat :=
  (cs.reverse.findIdx? fun c => c = sep).map fun i => cs.length - 1 - i

/-- Go `parseHost`: bracketed (IPv6) and plain forms, port validation, then
host unescaping/validation. -/
def parseHost (host : List Char) : Except String (List Char) :=
  if host.head? = some '[' then
    match lastIndexOf ']' host with
    | none => Except.error "missing ']' in host"
    | some i =>
      if !validOptionalPort (host.drop (i + 1)) then
        Except.error "invalid port after host"
      else unescapeHost host
  else
    match lastIndexOf ':' host with
    | some i =>
      if !validOptionalPort (host.drop i) then
        Except.error "invalid port after host"
      else unescapeHost host
    | none => unescapeHost host

/-- Go `parseAuthority`: the host is everything after the last `@`; userinfo
charset validation is not modelled (no controller URL carries userinfo). -/
def parseAuthority (authority : List Char) : Except String (List Char) :=
  match lastIndexOf '@' authority with
  | none => parseHost authority
  | some i => parseHost (authority.drop (i + 1))

/-- The `net/url.URL` fields `parseBucketURL` and the mount helpers read. -/
structure GoURL where
  scheme : String := ""
  opq : String := ""
  host : String := ""
  path : String := ""
  rawQuery : String := ""
  deriving Repr, DecidableEq

/-- Go `parse(rawURL, viaRequest = false)`, after the control-character check. -/
def goURLParsePart (raw : List Char) : Except String GoURL :=
  if raw = ['*'] then Except.ok { path := "*" }
  else
    match getScheme raw with
    | Except.error e => Except.error e
    | Except.ok (schemeCs, rest0) =>
      let scheme := schemeCs.map Char.toLower
      let qsplit : List Char × List Char :=
        if rest0.getLast? = some '?' && rest0.count '?' = 1 then
          (rest0.dropLast, [])
        else
          match splitCut '?' rest0 with
          | (b, some a) => (b, a)
          | (b, none) => (b, [])
      let rest := qsplit.1
      let rawQuery := String.mk qsplit.2
      if rest.head? ≠ some '/' then
        if scheme ≠ [] then
          Except.ok { scheme := String.mk scheme, opq := String.mk rest, rawQuery }
        else
          let segment := (splitCut '/' rest).1
          if segment.contains ':' then
            Except.error "first path segment in URL cannot contain colon"
          else
            match unescapePath rest with
            | Except.error e => Except.error e
            | Except.ok p => Except.ok { path := String.mk p, rawQuery }
      else
        if (scheme ≠ [] || !(['/', '/', '/'].isPrefixOf rest)) &&
            ['/', '/'].isPrefixOf rest then
          let asplit := splitKeep '/' (rest.drop 2)
          match parseAuthority asplit.1 with
          | Except.error e => Except.error e
          | Except.ok host =>
            match unescapePath asplit.2 with
            | Except.error e => Except.error e
            | Except.ok p =>
              Except.ok { scheme := String.mk scheme, host := String.mk host,
                          path := String.mk p, rawQuery }
        else
          match unescapePath rest with
          | Except.error e => Except.error e
          | Except.ok p =>
            Except.ok { scheme := String.mk scheme, path := String.mk p, rawQuery }

/-- Go `url.Parse`: split off the fragment, reject control characters, parse
the rest.  Fragment decoding is not modelled. -/
def goURLParse (rawURL : String) : Except String GoURL :=
  let p := splitCut '#' rawURL.toList
  if stringContainsCTLByte p.1 then
    Except.error "net/url: invalid control character in URL"
  else goURLParsePart p.1

/-! ### `path/filepath` on a Unix platform -/

/-- Split on a separator, keeping empty components (Go `strings.Split`-like). -/
def splitOnSep (sep : Char) : List Char → List (List Char)
  | [] => [[]]
  | c :: rest =>
    if c = sep then [] :: splitOnSep sep rest
    else
      match splitOnSep sep rest with
      | [] => [[c]]
      | h :: t => (c :: h) :: t

/-- One step of `path.Clean`'s component processing (stack in reverse order). -/
def cleanStep (rooted : Bool) (stack : List (List Char)) (comp : List Char) :
    List (List Char) :=
  if comp = [] || comp = ['.'] then stack
  else if comp = ['.', '.'] then
    match stack with
    | [] => if rooted then [] else [comp]
    | top :: rest => if top = ['.', '.'] then comp :: stack else rest
  else comp :: stack

def intercalateSlash : List (List Char) → List Char
  | [] => []
  | [c] => c
  | c :: rest => c ++ '/' :: intercalateSlash rest

/-- Go `path.Clean` (equals `filepath.Clean` on Unix): resolve `.` and `..`
components and duplicate slashes; the empty path cleans to `"."`. -/
def pathClean (cs : List Char) : List Char :=
  if cs = [] then ['.']
  else
    let rooted := cs.head? = some '/'
    let stack := ((splitOnSep '/' cs).foldl (cleanStep rooted) []).reverse
    let out := (if rooted then ['/'] else []) ++ intercalateSlash stack
    if out = [] then ['.'] else out

/-- Everything up to and including the last slash (Go `Dir`'s backward scan);
empty when there is no slash. -/
def takeThroughLastSlash (cs : List Char) : List Char :=
  (cs.reverse.dropWhile fun c => c ≠ '/').reverse

/-- Go `filepath.Dir` on Unix: all but the last path element, cleaned. -/
def filepathDir (p : String) : String :=
  String.mk (pathClean (takeThroughLastSlash p.toList))

/-- Go `strings.TrimPrefix(s, sepSlash)`: drop one leading slash if present. -/
def trimLeadingSlash (s : String) : String :=
  match s.toList with
  | '/' :: rest => String.mk rest
  | _ => s

/-! ## `parseBucketURL` -/

/-- Model of `parseBucketURL(bucketURL) (bucket, subpath, err)`: parse the URL, take the
host as the bucket and the slash-trimmed directory of the path as the subpath. -/
def parseBucketURL (bucketURL : String) : Except String (String × String) :=
  match goURLParse bucketURL with
  | Except.error e => Except.error ("parsing bucket url: " ++ e)
  | Except.ok u => Except.ok (u.host, trimLeadingSlash (filepathDir u.path))

/-! ## Dataset and Model resources -/

structure DatasetSpec where
  image : String := ""
  filename : String := ""
  deriving Repr, DecidableEq

structure DatasetStatus where
  url : String := ""
  conditions : List Condition := []
  ready : Bool := false
  deriving Repr, DecidableEq

/-- An `apiv1.Dataset` (the fields the controller reads or writes). -/
structure Dataset where
  name : String
  ns : String
  uid : String
  spec : DatasetSpec := {}
  status : DatasetStatus := {}
  deriving Repr, DecidableEq

structure ModelStatus where
  url : String := ""
  conditions : List Condition := []
  ready : Bool := false
  deriving Repr, DecidableEq

/-- An `apiv1.Model` (the fields `mountSavedModel` reads). -/
structure Model where
  name : String
  ns : String
  uid : String
  status : ModelStatus := {}
  deriving Repr, DecidableEq

/-! ## Mount helpers (`mountDataset`, `mountSavedModel`)

Go passes the `volumes` and `volumeMounts` slice headers by value; the
functions append to their local copies and return only an `error`, so the
appended volume and mount are never visible to the caller.  The embeddings
below return, besides the Go return value (the error), the final values of the
function's local slice variables, so that what the function built — and what
the caller does not receive — is statable. -/

/-- A `corev1.Volume` (the fields the mount helpers set: a CSI volume source). -/
structure Volume where
  name : String
  driver : String
  readOnly : Bool := false
  bucketName : String := ""
  mountOptions : String := ""
  deriving Repr, DecidableEq

structure VolumeMount where
  name : String
  mountPath : String
  subPath : String := ""
  readOnly : Bool := false
  deriving Repr, DecidableEq

/-- Model of `mountDataset(volumes, volumeMounts, dataset)`: first component is Go's
return value (the error), the rest are the function's local slices after the
appends. -/
def mountDataset (volumes : List Volume) (volumeMounts : List VolumeMount)
    (dataset : Dataset) : Option String × List Volume × List VolumeMount :=
  match parseBucketURL dataset.status.url with
  | Except.error e => (some ("parsing dataset url: " ++ e), volumes, volumeMounts)
  | Except.ok (bucket, subpath) =>
    (none,
     volumes ++ [{ name := "data", driver := "gcsfuse.csi.storage.gke.io",
                   readOnly := true, bucketName := bucket,
                   mountOptions := "implicit-dirs,uid=0,gid=3003" }],
     volumeMounts ++ [{ name := "data", mountPath := "/data", subPath := subpath,
                        readOnly := true }])

/-- Model of `mountSavedModel(volumes, volumeMounts, savedModel)` (its error text says
"dataset", as in the source). -/
def mountSavedModel (volumes : List Volume) (volumeMounts : List VolumeMount)
    (savedModel : Model) : Option String × List Volume × List VolumeMount :=
  match parseBucketURL savedModel.status.url with
  | Except.error e => (some ("parsing dataset url: " ++ e), volumes, volumeMounts)
  | Except.ok (bucket, subpath) =>
    (none,
     volumes ++ [{ name := "saved-model", driver := "gcsfuse.csi.storage.gke.io",
                   readOnly := true, bucketName := bucket,
                   mountOptions := "implicit-dirs,uid=0,gid=3003" }],
     volumeMounts ++ [{ name := "saved-model", mountPath := "/model/saved",
                        subPath := subpath, readOnly := true }])

/-- Go call-site semantics of `err := mountDataset(volumes, volumeMounts, d)`:
slice headers are passed by value and `append` never writes below the caller's
length, so after the call the caller still observes its original `volumes` and
`volumeMounts`; only the error value flows back. -/
def callMountDataset (volumes : List Volume) (volumeMounts : List VolumeMount)
    (dataset : Dataset) : Option String × List Volume × List VolumeMount :=
  ((mountDataset volumes volumeMounts dataset).1, volumes, volumeMounts)

/-- Go call-site semantics of `err := mountSavedModel(...)` (see
`callMountDataset`). -/
def callMountSavedModel (volumes : List Volume) (volumeMounts : List VolumeMount)
    (savedModel : Model) : Option String × List Volume × List VolumeMount :=
  ((mountSavedModel volumes volumeMounts savedModel).1, volumes, volumeMounts)

/-! ## `nextPowOf2` and the helper constants -/

/-- Wrap an integer into int64 two's-complement range. -/
def wrap64 (x : Int) : Int := (x + 2 ^ 63) % 2 ^ 64 - 2 ^ 63

/-- int64 `k << 1`. -/
def shl64 (k : Int) : Int := wrap64 (k * 2)

/-- The loop `for k < n { k = k << 1 }` of `nextPowOf2`, with explicit fuel
modelling possible divergence: `none` means the loop has not exited within
`fuel` iterations.  Arithmetic is int64 (wrapping). -/
def nextPowOf2Loop : Nat → Int → Int → Option Int
  | 0, _, _ => none
  | fuel + 1, k, n => if k < n then nextPowOf2Loop fuel (shl64 k) n else some k

/-- Model of `nextPowOf2(n)`: `k := 1; for k < n { k = k << 1 }; return k`.  Fuel 64
is exact: for `n ≤ 2^62` the loop exits within 63 iterations, and for larger
`n` the int64 loop provably never exits (k wraps to `-2^63`, then sticks at 0),
which the model reports as `none`. -/
def nextPowOf2 (n : Int) : Option Int := nextPowOf2Loop 64 1 n

/-! ## The Dataset reconciler -/

/-- Value of `cloud.GCP` (a cloud-name tag from the `internal/cloud` package; only its
distinctness from other cloud names matters to the controller). -/
def GCP : String := "gcp"

def dataLoaderServiceAccountName : String := "data-loader"

/-- A `cloud.Context` (the fields the Dataset controller reads). -/
structure CloudContext where
  name : String
  gcpProjectID : String := ""
  deriving Repr, DecidableEq

/-- Model of `authNServiceAccount(sa)`: on GCP, set the workload-identity annotation;
on any other cloud, fail.  Returns the annotation key/value pair it sets. -/
def authNServiceAccount (cctx : CloudContext) (saName : String) :
    Except String (String × String) :=
  if cctx.name = GCP then
    Except.ok ("iam.gke.io/gcp-service-account",
      "substratus-" ++ saName ++ "@" ++ cctx.gcpProjectID ++ ".iam.gserviceaccount.com")
  else
    Except.error ("unsupported cloud type: \"" ++ cctx.name ++ "\"")

/-- Outcomes of the Kubernetes API calls `reconcileData` makes, fixed by the
environment: the `CreateOrUpdate` of the loader service account, the
`SetControllerReference` inside `loadJob`, and the Job create/get of
`reconcileJob`. -/
structure DataEnv where
  saOutcome : Except String Unit := Except.ok ()
  setOwnerRef : Except String Unit := Except.ok ()
  createJob : CreateOutcome := CreateOutcome.ok
  getJob : Except String KJob := Except.error "not found"
  deriving Repr, DecidableEq

/-- Model of `loadJob(ctx, dataset)`: build the data-loader Job.  In the GCP branch it
also assigns `dataset.Status.URL` on the in-memory object — before any check of
the job's success — so the (possibly mutated) dataset is returned alongside
the job-or-error.  The error case is `SetControllerReference` failing, which
happens after the mutation. -/
def loadJob (cctx : CloudContext) (env : DataEnv) (dataset : Dataset) :
    Except String KJob × Dataset :=
  let job : KJob :=
    { name := dataset.name ++ "-data-loader",
      ns := dataset.ns,
      image := dataset.spec.image,
      serviceAccountName := dataLoaderServiceAccountName,
      loadDataPath := "/data/" ++ dataset.spec.filename }
  let jobAndDataset :=
    if cctx.name = GCP then
      ({ job with gcsFuseBucket := some (cctx.gcpProjectID ++ "-substratus-datasets") },
       { dataset with status :=
          { dataset.status with url :=
              "gcs://" ++ cctx.gcpProjectID ++ "-substratus-datasets" ++
              "/" ++ dataset.uid ++ "/data/" ++ dataset.spec.filename } })
    else (job, dataset)
  match env.setOwnerRef with
  | Except.error e => (Except.error ("setting owner reference: " ++ e), jobAndDataset.2)
  | Except.ok _ => (Except.ok jobAndDataset.1, jobAndDataset.2)

/-- Return value of `reconcileData`: the `(result, error)` pair, the in-memory
dataset after the pass, and the trace of mutating API operations issued. -/
structure DataOut where
  res : result
  err : Option String
  dataset : Dataset
  ops : List Op
  deriving Repr, DecidableEq

/-- Model of `reconcileData(ctx, dataset)`: short-circuit on a populated status URL,
else ensure the loader service account, build the loader job (a construction
error is logged and swallowed: "No use in retrying..."), and run the job
orchestrator. -/
def reconcileData (cctx : CloudContext) (env : DataEnv) (dataset : Dataset) :
    DataOut :=
  if dataset.status.url ≠ "" then ⟨{ success := true }, none, dataset, []⟩
  else
    let saOp := Op.createOrUpdateSA dataLoaderServiceAccountName dataset.ns
    let saStep : Except String Unit :=
      match authNServiceAccount cctx dataLoaderServiceAccountName with
      | Except.error e => Except.error e
      | Except.ok _ => env.saOutcome
    match saStep with
    | Except.error e =>
        ⟨{}, some ("failed to create or update service account: " ++ e), dataset, [saOp]⟩
    | Except.ok _ =>
      let built := loadJob cctx env dataset
      match built.1 with
      | Except.error _ =>
          -- log.Error(...); "No use in retrying..."
          ⟨{}, none, built.2, [saOp]⟩
      | Except.ok job =>
        let jo := reconcileJob env.createJob env.getJob job
        if jo.res.success = false then ⟨jo.res, jo.err, built.2, saOp :: jo.ops⟩
        else ⟨{ success := true }, none, built.2, saOp :: jo.ops⟩

/-- Value of `apiv1.ConditionContainerReady`. -/
def ConditionContainerReady : String := "ContainerReady"

/-- Value of `apiv1.ConditionDataReady`. -/
def ConditionDataReady : String := "DataReady"

/-- Modelled from the spec: the container stage (`ReconcileContainer`, whose
body is outside this package's sources) returns a `(result, error)` pair and
may update the resource's conditions; per the spec it sets its stage condition
and never touches the artifact URL (the URL is written by the data/model
stage).  Its outcome is an environment parameter. -/
structure ContainerOutcome where
  res : result
  err : Option String := none
  conditions : List Condition := []
  deriving Repr, DecidableEq

/-- The in-memory dataset after the container stage. -/
def applyContainer (co : ContainerOutcome) (dataset : Dataset) : Dataset :=
  { dataset with status := { dataset.status with conditions := co.conditions } }

/-- Modelled from the spec: outcome of `reconcileReadiness` (body outside this
package's sources): it aggregates the required conditions, sets the overall
ready flag, and persists the status object. -/
structure ReadinessOutcome where
  res : result
  err : Option String := none
  conditions : List Condition := []
  ready : Bool := false
  deriving Repr, DecidableEq

/-- Modelled from the spec: `reconcileReadiness(ctx, client, obj, required)`
updates the in-memory conditions/ready flag and persists the status (one
status-update API operation); it does not modify the artifact URL. -/
def reconcileReadiness (ro : ReadinessOutcome) (dataset : Dataset)
    (_required : List (String × Bool)) : result × Option String × Dataset × List Op :=
  let d : Dataset :=
    { dataset with status :=
        { dataset.status with conditions := ro.conditions, ready := ro.ready } }
  (ro.res, ro.err, d, [Op.statusUpdate d.status.url d.status.conditions d.status.ready])

/-- The stages a single `Reconcile` invocation attempts, in order; the
readiness stage records the required-condition set it was invoked with. -/
inductive StageTag where
  | container
  | data
  | readiness (required : List (String × Bool))
  deriving Repr, DecidableEq

/-- Return value of `DatasetReconciler.Reconcile`: the `(ctrl.Result, error)`
pair, the in-memory dataset, the trace of mutating API operations, and the
stages attempted. -/
structure ReconcileOut where
  res : CtrlResult
  err : Option String
  dataset : Dataset
  ops : List Op
  stages : List StageTag
  deriving Repr, DecidableEq

/-- Model of `DatasetReconciler.Reconcile` after a successful fetch of the Dataset:
run `ReconcileContainer`, stop unless it succeeded; run `reconcileData`, stop
unless it succeeded; then `reconcileReadiness` over
`{ContainerReady: true, DataReady: true}`. -/
def DatasetReconcile (cctx : CloudContext) (co : ContainerOutcome)
    (env : DataEnv) (ro : ReadinessOutcome) (dataset : Dataset) : ReconcileOut :=
  let d1 := applyContainer co dataset
  if co.res.success = false then
    ⟨co.res.Result, co.err, d1, [], [StageTag.container]⟩
  else
    let dres := reconcileData cctx env d1
    if dres.res.success = false then
      ⟨dres.res.Result, dres.err, dres.dataset, dres.ops,
        [StageTag.container, StageTag.data]⟩
    else
      let required := [(ConditionContainerReady, true), (ConditionDataReady, true)]
      let r := reconcileReadiness ro dres.dataset required
      ⟨r.1.Result, r.2.1, r.2.2.1, dres.ops ++ r.2.2.2,
        [StageTag.container, StageTag.data, StageTag.readiness required]⟩

/-- Whether an API operation writes the resource's status subresource. -/
def Op.isStatusUpdate : Op → Bool
  | Op.statusUpdate _ _ _ => true
  | _ => false

/-- The persisted status after a trace of API operations: the last
status-update wins; with none, the initially persisted status stands. -/
def persistedStatus (init : DatasetStatus) (ops : List Op) : DatasetStatus :=
  ops.foldl
    (fun st op =>
      match op with
      | Op.statusUpdate url conditions ready => ⟨url, conditions, ready⟩
      | _ => st)
    init

/-! # Theorems -/

/-- C5: Parsing the artifact URL `"gcs://my-bucket/a/b/c.json"` with
`parseBucketURL` returns bucket `"my-bucket"` and subpath `"a/b"` (the host is
the bucket; the directory portion of the path, with the leading slash removed,
is the subpath) with no error. -/
theorem parseBucketURL_gcs_example :
    parseBucketURL "gcs://my-bucket/a/b/c.json" = Except.ok ("my-bucket", "a/b") := by
  decide

/-- C6 counterexample: the input `"not a url"` does not produce a parse error;
`parseBucketURL` succeeds on it, returning bucket `""` and subpath `"."`
(Go's `url.Parse` accepts it as a relative path reference). -/
theorem parseBucketURL_not_a_url :
    parseBucketURL "not a url" = Except.ok ("", ".") := by
  decide

/-- C6 (amended): `parseBucketURL` never crashes; it returns a descriptive
parse error exactly when the underlying URL parser rejects the input (for
example on a control character), while lenient inputs such as `"not a url"`
parse successfully with empty bucket and subpath `"."`. -/
theorem parseBucketURL_malformed :
    parseBucketURL "not\x01a url" =
      Except.error "parsing bucket url: net/url: invalid control character in URL"
    ∧ parseBucketURL "not a url" = Except.ok ("", ".")
    ∧ ∀ s : String,
        (∃ e, parseBucketURL s = Except.error e) ↔ ∃ e, goURLParse s = Except.error e := by
  refine ⟨by decide, by decide, fun s => ?_⟩
  constructor
  · intro ⟨e, he⟩
    unfold parseBucketURL at he
    cases hg : goURLParse s with
    | error e2 => exact ⟨e2, rfl⟩
    | ok u => rw [hg] at he; exact absurd he (by simp)
  · intro ⟨e, he⟩
    exact ⟨"parsing bucket url: " ++ e, by unfold parseBucketURL; rw [he]⟩

/-- C1: `reconcileJob` first attempts creation (an already-exists error is
handled exactly like success), then immediately re-reads the job; a creation
error other than already-exists is returned as an error, a read error is
returned as an error, a re-read job with fewer than one recorded success gives
an incomplete (non-success, non-error, non-requeue) result, and one with at
least one success gives success. -/
theorem reconcileJob_spec (createRes : CreateOutcome) (getRes : Except String KJob)
    (job : KJob) :
    (∀ m, createRes = CreateOutcome.err m →
      reconcileJob createRes getRes job =
        ⟨{}, some ("creating Job: " ++ m), [Op.createJob job.name job.ns]⟩)
  ∧ reconcileJob CreateOutcome.alreadyExists getRes job =
      reconcileJob CreateOutcome.ok getRes job
  ∧ (IgnoreAlreadyExists createRes = none →
      (∀ m, getRes = Except.error m →
        reconcileJob createRes getRes job =
          ⟨{}, some ("geting Job: " ++ m),
            [Op.createJob job.name job.ns, Op.getJob job.name job.ns]⟩)
      ∧ ∀ j, getRes = Except.ok j →
          (j.status.succeeded < 1 →
            reconcileJob createRes getRes job =
              ⟨{}, none, [Op.createJob job.name job.ns, Op.getJob job.name job.ns]⟩)
          ∧ (1 ≤ j.status.succeeded →
            reconcileJob createRes getRes job =
              ⟨{ success := true }, none,
                [Op.createJob job.name job.ns, Op.getJob job.name job.ns]⟩)) := by
  refine ⟨fun m hm => ?_, rfl, fun hc => ⟨fun m hm => ?_, fun j hj => ⟨fun hs => ?_, fun hs => ?_⟩⟩⟩
  · subst hm; rfl
  · subst hm; simp [reconcileJob, hc]
  · subst hj; simp [reconcileJob, hc, hs]
  · subst hj
    simp [reconcileJob, hc]
    omega

/-- Witness for C1: duplicate creation (already exists) of a job that has one
recorded success yields the success result. -/
theorem reconcileJob_spec_witness :
    reconcileJob CreateOutcome.alreadyExists
        (Except.ok { name := "d-data-loader", ns := "team", status := { succeeded := 1 } })
        { name := "d-data-loader", ns := "team" } =
      ⟨{ success := true }, none,
        [Op.createJob "d-data-loader" "team", Op.getJob "d-data-loader" "team"]⟩ :=
  (((reconcileJob_spec CreateOutcome.alreadyExists
      (Except.ok { name := "d-data-loader", ns := "team", status := { succeeded := 1 } })
      { name := "d-data-loader", ns := "team" }).2.2 (by decide)).2
    { name := "d-data-loader", ns := "team", status := { succeeded := 1 } } rfl).2 (by decide)

/-- C3: once `status.url` is non-empty, `reconcileData` returns success
immediately: no error, no API operation issued (no job, no service account),
and the Dataset left unchanged. -/
theorem reconcileData_url_short_circuit (cctx : CloudContext) (env : DataEnv)
    (dataset : Dataset) (h : dataset.status.url ≠ "") :
    reconcileData cctx env dataset = ⟨{ success := true }, none, dataset, []⟩ := by
  simp [reconcileData, h]

/-- Witness for C3: a Dataset with a populated URL short-circuits. -/
theorem reconcileData_url_short_circuit_witness :
    reconcileData { name := GCP, gcpProjectID := "proj" } {}
        { name := "d", ns := "team", uid := "u1",
          status := { url := "gcs://proj-substratus-datasets/u1/data/x.json" } } =
      ⟨{ success := true }, none,
        { name := "d", ns := "team", uid := "u1",
          status := { url := "gcs://proj-substratus-datasets/u1/data/x.json" } }, []⟩ :=
  reconcileData_url_short_circuit _ _ _ (by decide)

/-- C7: when the loader job cannot be built (`loadJob` returns a construction
error, i.e. setting the owner reference fails), `reconcileData` returns no
error and a non-success result with the zero `ctrl.Result` (no requeue, no
requeue delay); only the service-account ensure was issued — no job creation. -/
theorem reconcileData_construction_error (cctx : CloudContext) (env : DataEnv)
    (dataset : Dataset) (e : String)
    (hurl : dataset.status.url = "")
    (hcloud : cctx.name = GCP)
    (hsa : env.saOutcome = Except.ok ())
    (href : env.setOwnerRef = Except.error e) :
    reconcileData cctx env dataset =
      ⟨{ Result := { requeue := false, requeueAfter := 0 }, success := false }, none,
        (loadJob cctx env dataset).2,
        [Op.createOrUpdateSA dataLoaderServiceAccountName dataset.ns]⟩ := by
  simp [reconcileData, authNServiceAccount, loadJob, hurl, hcloud, hsa, href]

/-- Witness for C7: a GCP dataset whose owner-reference setting fails gets the
logged-and-swallowed treatment. -/
theorem reconcileData_construction_error_witness :
    reconcileData { name := GCP, gcpProjectID := "proj" }
        { setOwnerRef := Except.error "cross-namespace owner" }
        { name := "d", ns := "team", uid := "u1", spec := { filename := "x.json" } } =
      ⟨{ Result := { requeue := false, requeueAfter := 0 }, success := false }, none,
        (loadJob { name := GCP, gcpProjectID := "proj" }
          { setOwnerRef := Except.error "cross-namespace owner" }
          { name := "d", ns := "team", uid := "u1", spec := { filename := "x.json" } }).2,
        [Op.createOrUpdateSA dataLoaderServiceAccountName "team"]⟩ :=
  reconcileData_construction_error _ _ _ "cross-namespace owner" rfl rfl rfl rfl

/-- C8: stages run strictly in declared order.  If the container stage does
not succeed, the invocation ends at once with its result (the data stage and
the readiness aggregation are not attempted); if the container stage succeeds
but the data stage does not, the invocation ends with the data stage's result
(readiness not attempted); only after both succeed is overall readiness
evaluated, over the required set `{ContainerReady, DataReady}`. -/
theorem DatasetReconcile_stage_order (cctx : CloudContext) (co : ContainerOutcome)
    (env : DataEnv) (ro : ReadinessOutcome) (dataset : Dataset) :
    (co.res.success = false →
      DatasetReconcile cctx co env ro dataset =
        ⟨co.res.Result, co.err, applyContainer co dataset, [], [StageTag.container]⟩)
  ∧ (co.res.success = true →
      (reconcileData cctx env (applyContainer co dataset)).res.success = false →
      DatasetReconcile cctx co env ro dataset =
        ⟨(reconcileData cctx env (applyContainer co dataset)).res.Result,
         (reconcileData cctx env (applyContainer co dataset)).err,
         (reconcileData cctx env (applyContainer co dataset)).dataset,
         (reconcileData cctx env (applyContainer co dataset)).ops,
         [StageTag.container, StageTag.data]⟩)
  ∧ (co.res.success = true →
      (reconcileData cctx env (applyContainer co dataset)).res.success = true →
      (DatasetReconcile cctx co env ro dataset).stages =
        [StageTag.container, StageTag.data,
         StageTag.readiness [(ConditionContainerReady, true), (ConditionDataReady, true)]]
      ∧ (DatasetReconcile cctx co env ro dataset).res = ro.res.Result
      ∧ (DatasetReconcile cctx co env ro dataset).err = ro.err) := by
  refine ⟨fun hco => ?_, fun hco hdata => ?_, fun hco hdata => ?_⟩
  · simp [DatasetReconcile, hco]
  · simp [DatasetReconcile, hco, hdata]
  · simp [DatasetReconcile, reconcileReadiness, hco, hdata]

/-- Witness for C8: an incomplete container stage ends the invocation with
only the container stage attempted. -/
theorem DatasetReconcile_stage_order_witness :
    DatasetReconcile { name := GCP, gcpProjectID := "proj" }
        { res := { success := false } } {} { res := { success := false } }
        { name := "d", ns := "team", uid := "u1" } =
      ⟨{ requeue := false, requeueAfter := 0 }, none,
        applyContainer { res := { success := false } }
          { name := "d", ns := "team", uid := "u1" },
        [], [StageTag.container]⟩ :=
  (DatasetReconcile_stage_order { name := GCP, gcpProjectID := "proj" }
      { res := { success := false } } {} { res := { success := false } }
      { name := "d", ns := "team", uid := "u1" }).1 rfl

/-- C10: with a well-formed status URL, `mountDataset` (resp. `mountSavedModel`)
returns nil, and the volume and mount it constructs are appended only to the
function's local copies of the slice headers: the caller observes the nil error
and its original, unchanged `volumes` and `volumeMounts` (Go passes slice
headers by value), while the local slices — which the caller never receives —
really did grow by the constructed volume/mount pair. -/
theorem mount_locals_not_observable (volumes : List Volume)
    (volumeMounts : List VolumeMount) (dataset : Dataset) (savedModel : Model)
    (b p b2 p2 : String)
    (hd : parseBucketURL dataset.status.url = Except.ok (b, p))
    (hm : parseBucketURL savedModel.status.url = Except.ok (b2, p2)) :
    callMountDataset volumes volumeMounts dataset = (none, volumes, volumeMounts)
  ∧ (mountDataset volumes volumeMounts dataset).2.1 =
      volumes ++ [{ name := "data", driver := "gcsfuse.csi.storage.gke.io",
                    readOnly := true, bucketName := b,
                    mountOptions := "implicit-dirs,uid=0,gid=3003" }]
  ∧ (mountDataset volumes volumeMounts dataset).2.2 =
      volumeMounts ++ [{ name := "data", mountPath := "/data", subPath := p,
                         readOnly := true }]
  ∧ (mountDataset volumes volumeMounts dataset).2.1 ≠ volumes
  ∧ callMountSavedModel volumes volumeMounts savedModel = (none, volumes, volumeMounts)
  ∧ (mountSavedModel volumes volumeMounts savedModel).2.1 =
      volumes ++ [{ name := "saved-model", driver := "gcsfuse.csi.storage.gke.io",
                    readOnly := true, bucketName := b2,
                    mountOptions := "implicit-dirs,uid=0,gid=3003" }]
  ∧ (mountSavedModel volumes volumeMounts savedModel).2.2 =
      volumeMounts ++ [{ name := "saved-model", mountPath := "/model/saved",
                         subPath := p2, readOnly := true }]
  ∧ (mountSavedModel volumes volumeMounts savedModel).2.1 ≠ volumes := by
  refine ⟨?_, ?_, ?_, ?_, ?_, ?_, ?_, ?_⟩
  · simp [callMountDataset, mountDataset, hd]
  · simp [mountDataset, hd]
  · simp [mountDataset, hd]
  · simp [mountDataset, hd]
  · simp [callMountSavedModel, mountSavedModel, hm]
  · simp [mountSavedModel, hm]
  · simp [mountSavedModel, hm]
  · simp [mountSavedModel, hm]

/-- Witness for C10: a dataset and model with concrete well-formed URLs, empty
caller slices. -/
theorem mount_locals_not_observable_witness :
    parseBucketURL "gcs://bkt/u1/data/x.json" = Except.ok ("bkt", "u1/data")
    ∧ (callMountDataset [] []
        { name := "d", ns := "team", uid := "u1",
          status := { url := "gcs://bkt/u1/data/x.json" } } = (none, [], [])
      ∧ (mountDataset [] []
          { name := "d", ns := "team", uid := "u1",
            status := { url := "gcs://bkt/u1/data/x.json" } }).2.1 =
        [] ++ [{ name := "data", driver := "gcsfuse.csi.storage.gke.io",
                 readOnly := true, bucketName := "bkt",
                 mountOptions := "implicit-dirs,uid=0,gid=3003" }]
      ∧ (mountDataset [] []
          { name := "d", ns := "team", uid := "u1",
            status := { url := "gcs://bkt/u1/data/x.json" } }).2.2 =
        [] ++ [{ name := "data", mountPath := "/data", subPath := "u1/data",
                 readOnly := true }]
      ∧ (mountDataset [] []
          { name := "d", ns := "team", uid := "u1",
            status := { url := "gcs://bkt/u1/data/x.json" } }).2.1 ≠ []
      ∧ callMountSavedModel [] []
          { name := "m", ns := "team", uid := "u2",
            status := { url := "gcs://bkt/u2/model/w.bin" } } = (none, [], [])
      ∧ (mountSavedModel [] []
          { name := "m", ns := "team", uid := "u2",
            status := { url := "gcs://bkt/u2/model/w.bin" } }).2.1 =
        [] ++ [{ name := "saved-model", driver := "gcsfuse.csi.storage.gke.io",
                 readOnly := true, bucketName := "bkt",
                 mountOptions := "implicit-dirs,uid=0,gid=3003" }]
      ∧ (mountSavedModel [] []
          { name := "m", ns := "team", uid := "u2",
            status := { url := "gcs://bkt/u2/model/w.bin" } }).2.2 =
        [] ++ [{ name := "saved-model", mountPath := "/model/saved",
                 subPath := "u2/model", readOnly := true }]
      ∧ (mountSavedModel [] []
          { name := "m", ns := "team", uid := "u2",
            status := { url := "gcs://bkt/u2/model/w.bin" } }).2.1 ≠ []) :=
  ⟨by decide,
    mount_locals_not_observable [] []
      { name := "d", ns := "team", uid := "u1",
        status := { url := "gcs://bkt/u1/data/x.json" } }
      { name := "m", ns := "team", uid := "u2",
        status := { url := "gcs://bkt/u2/model/w.bin" } }
      "bkt" "u1/data" "bkt" "u2/model" (by decide) (by decide)⟩

/-! ### `nextPowOf2` lemmas -/

lemma wrap64_eq_self (x : Int) (h1 : -(2 ^ 63) ≤ x) (h2 : x < 2 ^ 63) :
    wrap64 x = x := by
  have e63 : (2:Int) ^ 63 = 9223372036854775808 := by norm_num
  have e64 : (2:Int) ^ 64 = 18446744073709551616 := by norm_num
  unfold wrap64
  rw [e63] at h1 h2 ⊢
  rw [e64, Int.emod_eq_of_lt (by omega) (by omega)]
  omega

lemma nextPowOf2Loop_succ (fuel : Nat) (k n : Int) :
    nextPowOf2Loop (fuel + 1) k n =
      if k < n then nextPowOf2Loop fuel (shl64 k) n else some k := rfl

lemma nextPowOf2Loop_spec (fuel i : Nat) (n : Int)
    (_h1 : 1 ≤ n) (h2 : n ≤ 2 ^ 62) (hi : i ≤ 62) (hf : 63 - i ≤ fuel) :
    ∃ j : Nat, i ≤ j ∧ j ≤ 62 ∧
      nextPowOf2Loop fuel ((2:Int) ^ i) n = some ((2:Int) ^ j) ∧
      n ≤ 2 ^ j ∧ (i < j → (2:Int) ^ (j - 1) < n) := by
  induction fuel generalizing i with
  | zero => omega
  | succ f ih =>
    by_cases hlt : (2:Int) ^ i < n
    · have hi62 : i < 62 := by
        by_contra hge
        have hEq : i = 62 := by omega
        subst hEq
        exact absurd hlt (not_lt.2 h2)
      have hshl : shl64 ((2:Int) ^ i) = (2:Int) ^ (i + 1) := by
        unfold shl64
        rw [← pow_succ]
        refine wrap64_eq_self _ ?_ ?_
        · have hpos : (0:Int) ≤ 2 ^ (i + 1) := pow_nonneg (by norm_num) _
          have e63 : (2:Int) ^ 63 = 9223372036854775808 := by norm_num
          omega
        · calc (2:Int) ^ (i + 1) ≤ 2 ^ 62 := pow_le_pow_right₀ one_le_two (by omega)
            _ < 2 ^ 63 := by norm_num
      rw [nextPowOf2Loop_succ, if_pos hlt, hshl]
      obtain ⟨j, hij, hj62, heq, hnle, hmin⟩ := ih (i + 1) (by omega) (by omega)
      refine ⟨j, by omega, hj62, heq, hnle, fun _ => ?_⟩
      rcases Nat.lt_or_ge (i + 1) j with hcase | hcase
      · exact hmin hcase
      · have hEq : j = i + 1 := by omega
        subst hEq
        simpa using hlt
    · refine ⟨i, le_refl i, hi, ?_, not_lt.1 hlt, fun h => absurd h (lt_irrefl i)⟩
      rw [nextPowOf2Loop_succ, if_neg hlt]

/-- C9: for every int64 `n` with `n ≤ 2^62`, `nextPowOf2(n)` terminates (the
fuel model returns a value) and its result is the least power of two greater
than or equal to `max n 1`; in particular the result is `1` for every
`n ≤ 1`. -/
theorem nextPowOf2_spec (n : Int) (hlo : -(2 ^ 63) ≤ n) (hhi : n ≤ 2 ^ 62) :
    ∃ p : Int, nextPowOf2 n = some p ∧
      (∃ i : Nat, p = 2 ^ i) ∧
      max n 1 ≤ p ∧
      (∀ m : Nat, max n 1 ≤ (2:Int) ^ m → p ≤ 2 ^ m) ∧
      (n ≤ 1 → p = 1) := by
  by_cases h1 : n ≤ 1
  · refine ⟨1, ?_, ⟨0, by norm_num⟩, max_le h1 le_rfl,
      fun m _ => one_le_pow₀ one_le_two, fun _ => rfl⟩
    show nextPowOf2Loop (63 + 1) 1 n = some 1
    rw [nextPowOf2Loop_succ, if_neg (by omega)]
  · push_neg at h1
    obtain ⟨j, _, _, heq, hnle, hmin⟩ :=
      nextPowOf2Loop_spec 64 0 n (by omega) hhi (by omega) (by omega)
    have hj0 : 0 < j := by
      by_contra hz
      have hEq : j = 0 := by omega
      subst hEq
      simp only [pow_zero] at hnle
      omega
    refine ⟨2 ^ j, ?_, ⟨j, rfl⟩, ?_, fun m hm => ?_, fun hle => absurd hle (not_le.2 h1)⟩
    · unfold nextPowOf2
      simpa using heq
    · rw [max_eq_left (by omega)]
      exact hnle
    · rw [max_eq_left (by omega)] at hm
      have hlt : (2:Int) ^ (j - 1) < 2 ^ m := lt_of_lt_of_le (hmin hj0) hm
      have hjm : j - 1 < m := (pow_lt_pow_iff_right₀ one_lt_two).1 hlt
      exact pow_le_pow_right₀ one_le_two (by omega)

/-- Witness for C9: `nextPowOf2 5 = some 8`, and 8 is the least power of two
at least `max 5 1`. -/
theorem nextPowOf2_spec_witness :
    -(2 ^ 63) ≤ (5:Int) ∧ (5:Int) ≤ 2 ^ 62 ∧
    ∃ p : Int, nextPowOf2 5 = some p ∧
      (∃ i : Nat, p = 2 ^ i) ∧
      max (5:Int) 1 ≤ p ∧
      (∀ m : Nat, max (5:Int) 1 ≤ (2:Int) ^ m → p ≤ 2 ^ m) ∧
      ((5:Int) ≤ 1 → p = 1) :=
  ⟨by norm_num, by norm_num, nextPowOf2_spec 5 (by norm_num) (by norm_num)⟩

/-! ### Status-persistence lemmas -/

lemma persistedStatus_no_update (init : DatasetStatus) (ops : List Op)
    (h : ∀ op ∈ ops, Op.isStatusUpdate op = false) :
    persistedStatus init ops = init := by
  induction ops generalizing init with
  | nil => rfl
  | cons a l ih =>
    unfold persistedStatus at ih ⊢
    rw [List.foldl_cons]
    cases a with
    | createOrUpdateSA x y => exact ih init fun op hop => h op (List.mem_cons_of_mem _ hop)
    | createJob x y => exact ih init fun op hop => h op (List.mem_cons_of_mem _ hop)
    | getJob x y => exact ih init fun op hop => h op (List.mem_cons_of_mem _ hop)
    | statusUpdate u c r =>
        exact absurd (h _ (List.mem_cons_self _ _)) (by simp [Op.isStatusUpdate])

lemma reconcileJob_not_succeeded (createRes : CreateOutcome)
    (getRes : Except String KJob) (job j : KJob)
    (hget : getRes = Except.ok j) (hsucc : j.status.succeeded < 1) :
    (reconcileJob createRes getRes job).res.success = false ∧
    ∀ op ∈ (reconcileJob createRes getRes job).ops, Op.isStatusUpdate op = false := by
  subst hget
  cases createRes <;>
    simp [reconcileJob, IgnoreAlreadyExists, hsucc, Op.isStatusUpdate]

lemma reconcileData_incomplete_ops (cctx : CloudContext) (env : DataEnv)
    (dataset : Dataset) (j : KJob)
    (hget : env.getJob = Except.ok j) (hsucc : j.status.succeeded < 1)
    (hurl : dataset.status.url = "") :
    (reconcileData cctx env dataset).res.success = false ∧
    ∀ op ∈ (reconcileData cctx env dataset).ops, Op.isStatusUpdate op = false := by
  rcases hauth : authNServiceAccount cctx dataLoaderServiceAccountName with e | av
  · simp [reconcileData, hurl, hauth, Op.isStatusUpdate]
  · rcases hsa : env.saOutcome with e | u
    · simp [reconcileData, hurl, hauth, hsa, Op.isStatusUpdate]
    · rcases hload : (loadJob cctx env dataset).1 with e | job
      · simp [reconcileData, hurl, hauth, hsa, hload, Op.isStatusUpdate]
      · obtain ⟨hr, ho⟩ :=
          reconcileJob_not_succeeded env.createJob env.getJob job j hget hsucc
        simp only [reconcileData, hurl, hauth, hsa, hload, hr,
          ne_eq, not_true_eq_false, if_false, ite_true, if_true]
        refine ⟨trivial, ?_⟩
        intro op hop
        rcases List.mem_cons.1 hop with rfl | hop2
        · rfl
        · exact ho op hop2

/-- C4: the artifact URL is persisted into the Dataset's status only once the
loader job has recorded at least one success: a reconcile pass that finds the
loader job not yet succeeded issues no status write, so the persisted
`status.url` stays empty; and once `status.url` is non-empty, every pass
leaves the persisted URL unchanged (immutable thereafter). -/
theorem dataset_url_persisted_only_after_success (cctx : CloudContext)
    (co : ContainerOutcome) (env : DataEnv) (ro : ReadinessOutcome)
    (dataset : Dataset) :
    (∀ j : KJob, dataset.status.url = "" → env.getJob = Except.ok j →
      j.status.succeeded < 1 →
      (persistedStatus dataset.status
        (DatasetReconcile cctx co env ro dataset).ops).url = "")
  ∧ (dataset.status.url ≠ "" →
      (persistedStatus dataset.status
        (DatasetReconcile cctx co env ro dataset).ops).url = dataset.status.url) := by
  constructor
  · intro j hurl hget hsucc
    by_cases hco : co.res.success = false
    · simp [DatasetReconcile, hco, persistedStatus, hurl]
    · have hco2 : co.res.success = true := by
        revert hco; cases co.res.success <;> simp
      have hd1 : (applyContainer co dataset).status.url = "" := by
        simp [applyContainer, hurl]
      obtain ⟨hfail, hops⟩ :=
        reconcileData_incomplete_ops cctx env (applyContainer co dataset) j hget hsucc hd1
      have hops_eq : (DatasetReconcile cctx co env ro dataset).ops =
          (reconcileData cctx env (applyContainer co dataset)).ops := by
        simp [DatasetReconcile, hco2, hfail]
      rw [hops_eq, persistedStatus_no_update _ _ hops, hurl]
  · intro hurl
    by_cases hco : co.res.success = false
    · simp [DatasetReconcile, hco, persistedStatus]
    · have hco2 : co.res.success = true := by
        revert hco; cases co.res.success <;> simp
      have hd1 : (applyContainer co dataset).status.url ≠ "" := by
        simpa [applyContainer] using hurl
      simp [DatasetReconcile, hco2, reconcileData, hd1, hurl, reconcileReadiness,
        persistedStatus, applyContainer]

/-- Witness for C4: a pass over a Dataset with empty URL whose loader job has
zero recorded successes persists no URL; a pass over one with a populated URL
leaves it intact. -/
theorem dataset_url_persisted_only_after_success_witness :
    (persistedStatus ({} : DatasetStatus)
      (DatasetReconcile { name := GCP, gcpProjectID := "proj" }
        { res := { success := true } }
        { getJob := Except.ok { name := "d-data-loader", ns := "team", status := { succeeded := 0 } } }
        { res := { success := true } }
        { name := "d", ns := "team", uid := "u1", spec := { filename := "x.json" } }).ops).url
      = "" :=
  (dataset_url_persisted_only_after_success { name := GCP, gcpProjectID := "proj" }
      { res := { success := true } }
      { getJob := Except.ok { name := "d-data-loader", ns := "team", status := { succeeded := 0 } } }
      { res := { success := true } }
      { name := "d", ns := "team", uid := "u1", spec := { filename := "x.json" } }).1
    { name := "d-data-loader", ns := "team", status := { succeeded := 0 } }
    rfl rfl (by decide)

/-! ### Condition-aggregation lemmas -/

lemma foldl_condAssign_not_mem (cs : List Condition) (m : String → Bool)
    (t : String) (h : ∀ c ∈ cs, c.type ≠ t) :
    cs.foldl condAssign m t = m t := by
  induction cs generalizing m with
  | nil => rfl
  | cons a l ih =>
    rw [List.foldl_cons, ih _ fun c hc => h c (List.mem_cons_of_mem _ hc)]
    simp [condAssign, Ne.symm (h a (List.mem_cons_self a l))]

lemma foldl_condAssign_congr (cs : List Condition) (m₁ m₂ : String → Bool)
    (t : String) (h : m₁ t = m₂ t) :
    cs.foldl condAssign m₁ t = cs.foldl condAssign m₂ t := by
  induction cs generalizing m₁ m₂ with
  | nil => exact h
  | cons a l ih =>
    rw [List.foldl_cons, List.foldl_cons]
    exact ih _ _ (by simp only [condAssign]; split <;> simp [h])

lemma actualConditions_of_mem (cs : List Condition)
    (huniq : (cs.map Condition.type).Nodup) (c : Condition) (hc : c ∈ cs) :
    actualConditions cs c.type = decide (c.status = ConditionTrue) := by
  induction cs with
  | nil => cases hc
  | cons a l ih =>
    rw [List.map_cons, List.nodup_cons] at huniq
    rcases List.mem_cons.1 hc with rfl | hmem
    · unfold actualConditions
      rw [List.foldl_cons,
        foldl_condAssign_not_mem l _ c.type
          (fun d hd hdt => huniq.1 (hdt ▸ List.mem_map_of_mem Condition.type hd))]
      simp [condAssign]
    · have htne : c.type ≠ a.type :=
        fun hEq => huniq.1 (hEq ▸ List.mem_map_of_mem Condition.type hmem)
      unfold actualConditions at ih ⊢
      rw [List.foldl_cons,
        foldl_condAssign_congr l (condAssign (fun _ => false) a) (fun _ => false)
          c.type (by simp [condAssign, htne])]
      exact ih huniq.2 hmem

lemma exists_true_of_foldl_condAssign (cs : List Condition) (m : String → Bool)
    (t : String) (h : cs.foldl condAssign m t = true) :
    (∃ c ∈ cs, c.type = t ∧ c.status = ConditionTrue) ∨ m t = true := by
  induction cs generalizing m with
  | nil => exact Or.inr h
  | cons a l ih =>
    rw [List.foldl_cons] at h
    rcases ih _ h with ⟨c, hc, hct, hcs⟩ | hm
    · exact Or.inl ⟨c, List.mem_cons_of_mem _ hc, hct, hcs⟩
    · by_cases hta : t = a.type
      · simp only [condAssign, if_pos hta, decide_eq_true_eq] at hm
        exact Or.inl ⟨a, List.mem_cons_self a l, hta.symm, hm⟩
      · simp only [condAssign, if_neg hta] at hm
        exact Or.inr hm

lemma actualConditions_middle (pre post : List Condition) (c' : Condition)
    (t : String) (h : t ≠ c'.type) :
    actualConditions (pre ++ c' :: post) t = actualConditions (pre ++ post) t := by
  unfold actualConditions
  rw [List.foldl_append, List.foldl_append, List.foldl_cons]
  exact foldl_condAssign_congr post _ _ t (by simp [condAssign, h])

lemma all_congr_of_eq {α : Type} (l : List α) (f g : α → Bool)
    (h : ∀ a ∈ l, f a = g a) : l.all f = l.all g := by
  induction l with
  | nil => rfl
  | cons a tail ih =>
    rw [List.all_cons, List.all_cons, h a (List.mem_cons_self a tail),
      ih fun b hb => h b (List.mem_cons_of_mem _ hb)]

/-- C2: `conditionsReady` is true iff every required condition type is present
with status true (an absent required type counts as false); and a condition of
a type not in the required set never affects the result, regardless of its
value or position. -/
theorem conditionsReady_spec (cs : List Condition) (req : List (String × Bool))
    (huniq : (cs.map Condition.type).Nodup) :
    (conditionsReady cs req = true ↔
      ∀ p ∈ req, p.2 = true → ∃ c ∈ cs, c.type = p.1 ∧ c.status = ConditionTrue)
  ∧ ∀ pre post : List Condition, ∀ c' : Condition,
      (∀ p ∈ req, p.2 = true → p.1 ≠ c'.type) →
      conditionsReady (pre ++ c' :: post) req = conditionsReady (pre ++ post) req := by
  constructor
  · unfold conditionsReady
    rw [List.all_eq_true]
    constructor
    · intro h p hp hreq
      have := h p hp
      rw [hreq] at this
      simp only [Bool.not_true, Bool.false_or] at this
      rcases exists_true_of_foldl_condAssign cs _ p.1 this with hex | hfalse
      · exact hex
      · cases hfalse
    · intro h p hp
      cases hp2 : p.2 with
      | false => simp
      | true =>
        obtain ⟨c, hc, hct, hcs⟩ := h p hp hp2
        have := actualConditions_of_mem cs huniq c hc
        rw [hct, hcs] at this
        simp only [decide_eq_true_eq] at this
        simp [this]
  · intro pre post c' hreq
    unfold conditionsReady
    apply all_congr_of_eq
    intro p hp
    cases hp2 : p.2 with
    | false => simp
    | true =>
      rw [actualConditions_middle pre post c' p.1 (hreq p hp hp2)]

/-- Witness for C2: a status with a unique `ContainerReady=True` condition and
a required set `{ContainerReady: true, Optional: false}`. -/
theorem conditionsReady_spec_witness :
    ([Condition.mk "ContainerReady" "True" "" ""].map Condition.type).Nodup
    ∧ ((conditionsReady [Condition.mk "ContainerReady" "True" "" ""]
          [("ContainerReady", true), ("Optional", false)] = true ↔
        ∀ p ∈ [("ContainerReady", true), ("Optional", false)], p.2 = true →
          ∃ c ∈ [Condition.mk "ContainerReady" "True" "" ""],
            c.type = p.1 ∧ c.status = ConditionTrue)
      ∧ ∀ pre post : List Condition, ∀ c' : Condition,
          (∀ p ∈ [("ContainerReady", true), ("Optional", false)],
            p.2 = true → p.1 ≠ c'.type) →
          conditionsReady (pre ++ c' :: post)
              [("ContainerReady", true), ("Optional", false)] =
            conditionsReady (pre ++ post)
              [("ContainerReady", true), ("Optional", false)]) :=
  ⟨by decide,
    conditionsReady_spec [Condition.mk "ContainerReady" "True" "" ""]
      [("ContainerReady", true), ("Optional", false)] (by decide)⟩

end Substratus
